import Mathlib

/-!
Verification development for the PA02 network I/O measurement programs
(two-copy, one-copy and zero-copy TCP senders/receivers, roll number MT25048).

The message codec, the statistics aggregator, the zero-copy support probe,
the completion handler, the send loop body and the shutdown drain loop are
embedded shallowly from the C sources:

- message codec and statistics: MT25048_Part_A_common.c
- zero-copy probing, completion handling, send loop and drain loop:
  MT25048_Part_A3_Client.c and the zero-copy variant of the server

Machine integers are modelled as Nat with explicit reductions modulo
2 ^ 64 (size_t) and 2 ^ 32 (uint32_t) where the C code can overflow.
Byte buffers are lists of Nat; the host is little-endian (x86-64), so the
size_t length field written by memcpy is modelled by a little-endian
byte encoding. Times and latencies (C doubles) are modelled as rationals;
rounding of IEEE doubles is not modelled, only the computation structure.
-/

/-! ### Little-endian encoding of the size_t length field

msg_serialize stores msg.field_size into the first 8 buffer bytes with
memcpy, and msg_deserialize reads it back the same way.  On the x86-64
host this is the little-endian byte encoding of the 64-bit value. -/

/-- Little-endian byte encoding of a value into the given number of bytes. -/
def natToLe : Nat → Nat → List Nat
  | 0, _ => []
  | w + 1, v => v % 256 :: natToLe w (v / 256)

/-- Little-endian decoding of a byte list into a value. -/
def leToNat : List Nat → Nat
  | [] => 0
  | b :: bs => b + 256 * leToNat bs

theorem natToLe_length (w v : Nat) : (natToLe w v).length = w := by
  induction w generalizing v with
  | zero => rfl
  | succ k ih => simp [natToLe, ih]

theorem leToNat_natToLe (w v : Nat) : leToNat (natToLe w v) = v % 2 ^ (8 * w) := by
  induction w generalizing v with
  | zero => simp [natToLe, leToNat, Nat.mod_one]
  | succ k ih =>
    have h256 : (2 : Nat) ^ (8 * (k + 1)) = 256 * 2 ^ (8 * k) := by
      rw [Nat.mul_succ, Nat.pow_add]; ring
    rw [natToLe, leToNat, ih, h256, Nat.mod_mul]

/-! ### Message structure and codec (MT25048_Part_A_common.c)

The C message_t holds NUM_FIELDS = 8 separately heap-allocated fields of
field_size bytes each.  A field is a byte list; a message is valid when it
has exactly 8 fields, each of length field_size (the invariant msg_alloc
establishes and the memcpy loops in the codec rely on). -/

/-- NUM_FIELDS from common.h. -/
def NUM_FIELDS : Nat := 8

/-- message_t from common.h: 8 heap-allocated fields plus their common size. -/
structure message_t where
  field : List (List Nat)
  field_size : Nat
deriving DecidableEq, Repr

/-- The allocation invariant of message_t: exactly NUM_FIELDS fields, each of
field_size bytes (established by the malloc loop in msg_alloc and assumed by
the memcpy loops in msg_serialize / msg_deserialize). -/
def msgWf (m : message_t) : Prop :=
  m.field.length = NUM_FIELDS ∧ ∀ f ∈ m.field, f.length = m.field_size

instance (m : message_t) : Decidable (msgWf m) := by
  unfold msgWf; infer_instance

/-- msg_serialize from MT25048_Part_A_common.c.  Returns the int result
(total frame size, or -1 when the buffer is too small) together with the
buffer contents after the call.  total_size is computed in size_t
arithmetic, hence the reduction modulo 2 ^ 64.  On the failure path the
check precedes every memcpy, so the buffer is returned unchanged; on
success the length field and the 8 fields are written contiguously from
offset 0 and the tail of the buffer is untouched. -/
def msg_serialize (m : message_t) (buffer : List Nat) : Int × List Nat :=
  let total_size := (8 + NUM_FIELDS * m.field_size) % 2 ^ 64
  if buffer.length < total_size then
    (-1, buffer)
  else
    ((total_size : Int), (natToLe 8 m.field_size ++ m.field.flatten) ++ buffer.drop total_size)

/-- The field-reading loop of msg_deserialize: copy count fields of
field_size bytes each out of the byte stream. -/
def readFields : Nat → Nat → List Nat → List (List Nat)
  | 0, _, _ => []
  | n + 1, fs, b => b.take fs :: readFields n fs (b.drop fs)

/-- msg_deserialize from MT25048_Part_A_common.c.  Returns none for the -1
error result (buffer shorter than the length field, or shorter than the
declared total size) and otherwise the returned total size together with
the reconstructed message.  field_size is read back from the first 8 bytes
and total_size is again size_t arithmetic. -/
def msg_deserialize (buffer : List Nat) : Option (Nat × message_t) :=
  if buffer.length < 8 then
    none
  else
    let field_size := leToNat (buffer.take 8)
    let total_size := (8 + NUM_FIELDS * field_size) % 2 ^ 64
    if buffer.length < total_size then
      none
    else
      some (total_size, ⟨readFields NUM_FIELDS field_size (buffer.drop 8), field_size⟩)

/-- Reading back fields that were written contiguously recovers them, as
long as every field has the declared size. -/
theorem readFields_join (fls : List (List Nat)) (rest : List Nat) (fs : Nat)
    (h : ∀ f ∈ fls, f.length = fs) :
    readFields fls.length fs (fls.flatten ++ rest) = fls := by
  induction fls with
  | nil => rfl
  | cons f fls ih =>
    have hf : f.length = fs := h f (List.mem_cons_self f fls)
    have hrest : ∀ g ∈ fls, g.length = fs := fun g hg => h g (List.mem_cons_of_mem f hg)
    have h1 : List.take fs (f ++ (fls.flatten ++ rest)) = f := by
      rw [← hf]; exact List.take_left f (fls.flatten ++ rest)
    have h2 : List.drop fs (f ++ (fls.flatten ++ rest)) = fls.flatten ++ rest := by
      rw [← hf]; exact List.drop_left f (fls.flatten ++ rest)
    simp only [List.length_cons, List.flatten_cons, readFields, List.append_assoc]
    rw [h1, h2, ih hrest]

/-- A well-formed message flattens to NUM_FIELDS * field_size bytes. -/
theorem msgWf_flatten_length (m : message_t) (h : msgWf m) :
    m.field.flatten.length = NUM_FIELDS * m.field_size := by
  rw [List.length_flatten]
  have hrep : m.field.map List.length = List.replicate NUM_FIELDS m.field_size := by
    apply List.eq_replicate_iff.mpr
    refine ⟨by simpa using h.1, ?_⟩
    intro b hb
    obtain ⟨f, hf, rfl⟩ := List.mem_map.mp hb
    exact h.2 f hf
  rw [hrep, List.sum_replicate, smul_eq_mul]

/-- On a buffer at least as long as the frame, msg_serialize returns the
frame size and writes the length field and fields contiguously, leaving the
tail of the buffer untouched. -/
theorem msg_serialize_of_le (m : message_t) (buffer : List Nat)
    (hsz : 8 + NUM_FIELDS * m.field_size < 2 ^ 64)
    (hcap : 8 + NUM_FIELDS * m.field_size ≤ buffer.length) :
    msg_serialize m buffer
      = (((8 + NUM_FIELDS * m.field_size : Nat) : Int),
         (natToLe 8 m.field_size ++ m.field.flatten)
           ++ buffer.drop (8 + NUM_FIELDS * m.field_size)) := by
  unfold msg_serialize
  simp only [Nat.mod_eq_of_lt hsz]
  rw [if_neg (by omega)]

/-- On a buffer shorter than the frame, msg_serialize fails with -1 and the
buffer is byte-for-byte unchanged (the size check precedes every memcpy). -/
theorem msg_serialize_of_lt (m : message_t) (buffer : List Nat)
    (hsz : 8 + NUM_FIELDS * m.field_size < 2 ^ 64)
    (hcap : buffer.length < 8 + NUM_FIELDS * m.field_size) :
    msg_serialize m buffer = (-1, buffer) := by
  unfold msg_serialize
  simp only [Nat.mod_eq_of_lt hsz]
  rw [if_pos (by omega)]

/-- C5: for every message with 8 fields of uniform length field_size,
serializing into a buffer of capacity at least sizeof(size_t) + 8*field_size
and deserializing the resulting buffer succeeds and returns a message equal
to the original field-for-field (same field_size, identical bytes in each of
the 8 fields).  The size bound 2 ^ 31 keeps the size_t and int arithmetic of
the C code exact. -/
theorem C5_codec_roundtrip (m : message_t) (buffer : List Nat)
    (hwf : msgWf m) (hsz : 8 + NUM_FIELDS * m.field_size < 2 ^ 31)
    (hcap : 8 + NUM_FIELDS * m.field_size ≤ buffer.length) :
    (msg_serialize m buffer).1 = ((8 + NUM_FIELDS * m.field_size : Nat) : Int) ∧
    msg_deserialize (msg_serialize m buffer).2
      = some (8 + NUM_FIELDS * m.field_size, m) := by
  have hsz64 : 8 + NUM_FIELDS * m.field_size < 2 ^ 64 := lt_trans hsz (by norm_num)
  have hfs64 : m.field_size < 2 ^ 64 := by
    simp only [NUM_FIELDS] at hsz64
    omega
  have hser := msg_serialize_of_le m buffer hsz64 hcap
  rw [hser]
  refine ⟨rfl, ?_⟩
  have hpre : (natToLe 8 m.field_size).length = 8 := natToLe_length 8 m.field_size
  have hfl : m.field.flatten.length = NUM_FIELDS * m.field_size :=
    msgWf_flatten_length m hwf
  set rest := buffer.drop (8 + NUM_FIELDS * m.field_size) with hrest
  have hassoc : (natToLe 8 m.field_size ++ m.field.flatten) ++ rest
      = natToLe 8 m.field_size ++ (m.field.flatten ++ rest) := by
    rw [List.append_assoc]
  have htake : ((natToLe 8 m.field_size ++ m.field.flatten) ++ rest).take 8 = natToLe 8 m.field_size := by
    rw [hassoc, ← hpre]
    exact List.take_left _ _
  have hdrop : ((natToLe 8 m.field_size ++ m.field.flatten) ++ rest).drop 8 = m.field.flatten ++ rest := by
    rw [hassoc, ← hpre]
    exact List.drop_left _ _
  have hlen : ((natToLe 8 m.field_size ++ m.field.flatten) ++ rest).length
      = 8 + NUM_FIELDS * m.field_size + rest.length := by
    simp [List.length_append, hpre, hfl]
    omega
  have hle : leToNat (((natToLe 8 m.field_size ++ m.field.flatten) ++ rest).take 8) = m.field_size := by
    rw [htake, leToNat_natToLe]
    have h64 : (8 : Nat) * 8 = 64 := by norm_num
    rw [h64]
    exact Nat.mod_eq_of_lt hfs64
  unfold msg_deserialize
  simp only [hle]
  rw [if_neg (by omega), Nat.mod_eq_of_lt hsz64, if_neg (by omega), hdrop]
  have hread : readFields NUM_FIELDS m.field_size (m.field.flatten ++ rest) = m.field := by
    have hlenf : m.field.length = NUM_FIELDS := hwf.1
    have := readFields_join m.field rest m.field_size (fun f hf => hwf.2 f hf)
    rw [hlenf] at this
    exact this
  rw [hread]

/-- C6: msg_deserialize rejects truncated input with an error and without
constructing any field: a buffer shorter than the 8-byte length field, or
shorter than the total frame size declared by that field, yields the -1
error result (modelled as none, which carries no message and hence no
freshly owned field storage); the overflow bound keeps the size_t
arithmetic of total_size exact. -/
theorem C6_deserialize_truncation_rejected (buffer : List Nat) :
    (buffer.length < 8 → msg_deserialize buffer = none) ∧
    (8 + NUM_FIELDS * leToNat (buffer.take 8) < 2 ^ 64 →
      buffer.length < 8 + NUM_FIELDS * leToNat (buffer.take 8) →
      msg_deserialize buffer = none) := by
  constructor
  · intro h
    unfold msg_deserialize
    rw [if_pos h]
  · intro hov hlt
    unfold msg_deserialize
    by_cases h8 : buffer.length < 8
    · rw [if_pos h8]
    · rw [if_neg h8]
      simp only [Nat.mod_eq_of_lt hov]
      rw [if_pos hlt]

/-- C7: msg_serialize writes the length field followed by the 8 fields
contiguously at the start of the buffer and returns the frame size
sizeof(size_t) + 8*field_size; the bytes beyond the frame are untouched.
When the buffer is smaller than the frame size it returns -1 and performs
no partial write: the buffer after the call is byte-for-byte the input
buffer. -/
theorem C7_serialize_contiguous_or_clean_failure (m : message_t) (buffer : List Nat)
    (hwf : msgWf m) (hsz : 8 + NUM_FIELDS * m.field_size < 2 ^ 31) :
    (buffer.length < 8 + NUM_FIELDS * m.field_size →
      msg_serialize m buffer = (-1, buffer)) ∧
    (8 + NUM_FIELDS * m.field_size ≤ buffer.length →
      (msg_serialize m buffer).1 = ((8 + NUM_FIELDS * m.field_size : Nat) : Int) ∧
      (msg_serialize m buffer).2.take (8 + NUM_FIELDS * m.field_size)
        = natToLe 8 m.field_size ++ m.field.flatten ∧
      (msg_serialize m buffer).2.drop (8 + NUM_FIELDS * m.field_size)
        = buffer.drop (8 + NUM_FIELDS * m.field_size) ∧
      (msg_serialize m buffer).2.length = buffer.length) := by
  have hsz64 : 8 + NUM_FIELDS * m.field_size < 2 ^ 64 := lt_trans hsz (by norm_num)
  have hpay : (natToLe 8 m.field_size ++ m.field.flatten).length
      = 8 + NUM_FIELDS * m.field_size := by
    rw [List.length_append, natToLe_length, msgWf_flatten_length m hwf]
  constructor
  · intro hlt
    exact msg_serialize_of_lt m buffer hsz64 hlt
  · intro hcap
    rw [msg_serialize_of_le m buffer hsz64 hcap]
    refine ⟨rfl, ?_, ?_, ?_⟩
    · rw [← hpay]
      exact List.take_left _ _
    · rw [← hpay]
      exact List.drop_left _ _
    · simp only [List.length_append, List.length_drop, hpay]
      omega

/-- The field size the sender allocates: msg_alloc is called with
msg_size / NUM_FIELDS at every sender call site (integer division). -/
def sender_field_size (msg_size : Nat) : Nat := msg_size / NUM_FIELDS

/-- C10: each of the 8 fields is allocated with exactly msg_size / 8 bytes
(integer division), so the transmitted frame is
sizeof(size_t) + 8*(msg_size / 8) bytes; when 8 does not divide msg_size
this is strictly smaller than sizeof(size_t) + msg_size, when msg_size < 8
the fields are empty, and the on-wire frame size equals
sizeof(size_t) + msg_size exactly when 8 divides msg_size. -/
theorem C10_frame_size_floor_division (msg_size : Nat) (m : message_t)
    (buffer : List Nat) (hwf : msgWf m)
    (hfs : m.field_size = sender_field_size msg_size)
    (hsz : 8 + msg_size < 2 ^ 31)
    (hcap : 8 + NUM_FIELDS * sender_field_size msg_size ≤ buffer.length) :
    (msg_serialize m buffer).1
      = ((8 + NUM_FIELDS * (msg_size / NUM_FIELDS) : Nat) : Int) ∧
    (¬ NUM_FIELDS ∣ msg_size →
      8 + NUM_FIELDS * (msg_size / NUM_FIELDS) < 8 + msg_size) ∧
    (msg_size < NUM_FIELDS → sender_field_size msg_size = 0) ∧
    (8 + NUM_FIELDS * (msg_size / NUM_FIELDS) = 8 + msg_size ↔ NUM_FIELDS ∣ msg_size) := by
  have hdm := Nat.div_add_mod msg_size NUM_FIELDS
  have h8 : NUM_FIELDS = 8 := rfl
  have hsz64 : 8 + NUM_FIELDS * m.field_size < 2 ^ 64 := by
    rw [hfs]
    unfold sender_field_size
    simp only [h8] at hsz ⊢
    omega
  have hcap2 : 8 + NUM_FIELDS * m.field_size ≤ buffer.length := by
    rw [hfs]; exact hcap
  refine ⟨?_, ?_, ?_, ?_⟩
  · rw [msg_serialize_of_le m buffer hsz64 hcap2, hfs]
    rfl
  · intro hnd
    have hmod : msg_size % NUM_FIELDS ≠ 0 := fun h => hnd (Nat.dvd_of_mod_eq_zero h)
    simp only [h8] at hdm hmod ⊢
    omega
  · intro hlt
    unfold sender_field_size
    exact Nat.div_eq_of_lt hlt
  · constructor
    · intro heq
      apply Nat.dvd_of_mod_eq_zero
      simp only [h8] at hdm heq ⊢
      omega
    · intro hd
      obtain ⟨k, rfl⟩ := hd
      rw [Nat.mul_div_cancel_left k (by simp [h8] : 0 < NUM_FIELDS)]

/-! ### Statistics aggregator (MT25048_Part_A_common.c)

stats_t accumulates byte, message and latency totals under a mutex; the
mutex itself is not modelled (C9 is about a single report step).  C doubles
are modelled as rationals; stats_print takes the current timestamp as an
explicit argument in place of get_timestamp_sec. -/

/-- stats_t from common.h (the pthread mutex is not part of the data). -/
structure stats_t where
  total_bytes : Nat
  total_messages : Nat
  total_latency_us : ℚ
  start_time_sec : ℚ
  end_time_sec : ℚ
deriving DecidableEq, Repr

/-- stats_init: zeroed counters, start time stamped from the clock. -/
def stats_init (now : ℚ) : stats_t :=
  { total_bytes := 0, total_messages := 0, total_latency_us := 0
    start_time_sec := now, end_time_sec := 0 }

/-- stats_update: locked increment of the three totals. -/
def stats_update (stats : stats_t) (bytes : Nat) (latency_us : ℚ) : stats_t :=
  { stats with
    total_bytes := stats.total_bytes + bytes
    total_messages := stats.total_messages + 1
    total_latency_us := stats.total_latency_us + latency_us }

/-- calculate_throughput_gbps from common.c: bits over duration, zero for a
non-positive duration. -/
def calculate_throughput_gbps (bytes_transferred : Nat) (duration_sec : ℚ) : ℚ :=
  if duration_sec ≤ 0 then 0
  else (bytes_transferred : ℚ) * 8 / (duration_sec * 1000000000)

/-- The derived quantities stats_print prints. -/
structure stats_report where
  duration_sec : ℚ
  throughput_gbps : ℚ
  avg_latency_us : ℚ
  messages_per_sec : ℚ
deriving Repr

/-- stats_print from common.c: stamps a fresh end time into the structure,
then derives duration, throughput, average latency (zero when no messages
were recorded) and message rate from the accumulated totals.  Returns the
updated structure together with the printed report. -/
def stats_print (now : ℚ) (stats : stats_t) : stats_t × stats_report :=
  let stats1 := { stats with end_time_sec := now }
  let duration_sec := stats1.end_time_sec - stats1.start_time_sec
  ({ stats1 with end_time_sec := now },
   { duration_sec := duration_sec
     throughput_gbps := calculate_throughput_gbps stats1.total_bytes duration_sec
     avg_latency_us :=
       if 0 < stats1.total_messages then
         stats1.total_latency_us / (stats1.total_messages : ℚ)
       else 0
     messages_per_sec := (stats1.total_messages : ℚ) / duration_sec })

/-- C9: every stats_print call stamps a fresh end time and derives
duration = end - start, throughput from total_bytes over that duration and
average latency total_latency / total_messages (zero when no message was
recorded); it leaves the accumulated totals and the start time unchanged,
so a repeated call changes only the derived duration. -/
theorem C9_stats_print_snapshot (s : stats_t) (now1 now2 : ℚ) :
    ((stats_print now1 s).1.total_bytes = s.total_bytes ∧
     (stats_print now1 s).1.total_messages = s.total_messages ∧
     (stats_print now1 s).1.total_latency_us = s.total_latency_us ∧
     (stats_print now1 s).1.start_time_sec = s.start_time_sec ∧
     (stats_print now1 s).1.end_time_sec = now1) ∧
    ((stats_print now1 s).2.duration_sec = now1 - s.start_time_sec ∧
     (stats_print now2 (stats_print now1 s).1).2.duration_sec
        = now2 - s.start_time_sec ∧
     (stats_print now2 (stats_print now1 s).1).1.total_bytes = s.total_bytes ∧
     (stats_print now2 (stats_print now1 s).1).1.total_messages
        = s.total_messages ∧
     (stats_print now2 (stats_print now1 s).1).1.total_latency_us
        = s.total_latency_us) ∧
    ((s.total_messages = 0 → (stats_print now1 s).2.avg_latency_us = 0) ∧
     (0 < s.total_messages →
       (stats_print now1 s).2.avg_latency_us * (s.total_messages : ℚ)
         = s.total_latency_us) ∧
     (0 < now1 - s.start_time_sec →
       (stats_print now1 s).2.throughput_gbps
           * ((now1 - s.start_time_sec) * 1000000000)
         = (s.total_bytes : ℚ) * 8)) := by
  refine ⟨⟨rfl, rfl, rfl, rfl, rfl⟩, ⟨rfl, rfl, rfl, rfl, rfl⟩, ?_, ?_, ?_⟩
  · intro h0
    simp [stats_print, h0]
  · intro hpos
    have hne : (s.total_messages : ℚ) ≠ 0 := by
      exact_mod_cast Nat.pos_iff_ne_zero.mp hpos
    simp only [stats_print, if_pos hpos]
    exact div_mul_cancel₀ _ hne
  · intro hdur
    have hne : (now1 - s.start_time_sec) * 1000000000 ≠ 0 :=
      mul_ne_zero (ne_of_gt hdur) (by norm_num)
    simp only [stats_print, calculate_throughput_gbps, if_neg (not_le.mpr hdur)]
    exact div_mul_cancel₀ _ hne

/-! ### Zero-copy strategy (MT25048_Part_A3_Client.c and the MSG_ZEROCOPY
server variant; the two contain identical check_zerocopy_support and
handle_zerocopy_completions functions and the same send and drain loops)

Errno values and socket constants are the Linux x86-64 numbers.  recvmsg
and sendmsg outcomes are supplied as explicit arguments: the kernel side
is the environment, the decision logic is the code under verification. -/

def EINTR : Nat := 4
def EAGAIN : Nat := 11
def EWOULDBLOCK : Nat := 11
def ENOPROTOOPT : Nat := 92
def ENOBUFS : Nat := 105
def MSG_ZEROCOPY : Nat := 67108864
def SOL_IP : Nat := 0
def IP_RECVERR : Nat := 11
def SO_EE_ORIGIN_ZEROCOPY : Nat := 5

/-- Outcome of the setsockopt(SO_ZEROCOPY) call. -/
inductive SetsockoptOutcome where
  | ok : SetsockoptOutcome
  | err (e : Nat) : SetsockoptOutcome
deriving DecidableEq, Repr

/-- check_zerocopy_support: 1 when SO_ZEROCOPY was enabled, 0 when the
kernel reports ENOPROTOOPT (not supported, fall back to plain sendmsg),
-1 for any other setsockopt failure. -/
def check_zerocopy_support (r : SetsockoptOutcome) : Int :=
  match r with
  | .ok => 1
  | .err e => if e = ENOPROTOOPT then 0 else -1

/-- The zero-copy setup step of the connection worker: it aborts the
connection (closes the socket and returns before any send) when
check_zerocopy_support is negative, and otherwise records whether the
MSG_ZEROCOPY flag is to be used (the C truth test on zerocopy_enabled). -/
def sender_setup (r : SetsockoptOutcome) : Option Bool :=
  let zerocopy_enabled := check_zerocopy_support r
  if zerocopy_enabled < 0 then none else some (zerocopy_enabled != 0)

/-- The flags argument of every sendmsg in the send loop:
zerocopy_enabled ? MSG_ZEROCOPY : 0. -/
def send_flags (zerocopy_enabled : Bool) : Nat :=
  if zerocopy_enabled then MSG_ZEROCOPY else 0

/-- The guard of the completion drain block at shutdown: it runs only when
zerocopy_enabled is set, so in fallback mode no completion is awaited. -/
def drain_at_shutdown (zerocopy_enabled : Bool) : Bool := zerocopy_enabled

/-- C4: when enabling SO_ZEROCOPY fails with ENOPROTOOPT the worker
degrades to sending without the MSG_ZEROCOPY flag and the completion
tracking is a no-op (no drain at shutdown); any other enable failure
aborts the connection before a single send is issued. -/
theorem C4_enoprotoopt_falls_back_other_errors_abort :
    check_zerocopy_support (.err ENOPROTOOPT) = 0 ∧
    sender_setup (.err ENOPROTOOPT) = some false ∧
    send_flags false = 0 ∧
    drain_at_shutdown false = false ∧
    (∀ e : Nat, e ≠ ENOPROTOOPT →
      check_zerocopy_support (.err e) = -1 ∧ sender_setup (.err e) = none) := by
  refine ⟨rfl, rfl, rfl, rfl, ?_⟩
  intro e he
  constructor
  · simp [check_zerocopy_support, he]
  · simp [sender_setup, check_zerocopy_support, he]

/-- The fields of one parsed control message that
handle_zerocopy_completions inspects: the cmsg level and type and the
sock_extended_err payload (origin, ee_info = lo, ee_data = hi, ee_code). -/
structure Cmsg where
  cmsg_level : Nat
  cmsg_type : Nat
  ee_origin : Nat
  ee_info : Nat
  ee_data : Nat
  ee_code : Nat
deriving DecidableEq, Repr

/-- The amount one control message adds to completed_count: for a
SOL_IP/IP_RECVERR message of zero-copy origin this is hi - lo + 1 in
uint32_t arithmetic (ee_info and ee_data are __u32), and 0 otherwise. -/
def cmsg_increment (cm : Cmsg) : Nat :=
  if cm.cmsg_level = SOL_IP ∧ cm.cmsg_type = IP_RECVERR ∧
      cm.ee_origin = SO_EE_ORIGIN_ZEROCOPY then
    (cm.ee_data % 2 ^ 32 + (2 ^ 32 - cm.ee_info % 2 ^ 32) + 1) % 2 ^ 32
  else 0

/-- The CMSG_FIRSTHDR/CMSG_NXTHDR loop of handle_zerocopy_completions:
every matching control message adds its range width to completed_count. -/
def process_control_messages : List Cmsg → Nat → Nat
  | [], completed_count => completed_count
  | cm :: rest, completed_count =>
      process_control_messages rest (completed_count + cmsg_increment cm)

/-- Outcome of the recvmsg(MSG_ERRQUEUE | MSG_DONTWAIT) call: an error
with an errno, or a successfully received list of control messages. -/
inductive RecvOutcome where
  | ok (msgs : List Cmsg) : RecvOutcome
  | err (e : Nat) : RecvOutcome
deriving DecidableEq, Repr

/-- handle_zerocopy_completions: 0 when no notification is available
(EAGAIN/EWOULDBLOCK), -1 on any other recvmsg error, and otherwise 1 with
completed_count advanced by every notification found in the control
messages.  It performs no validation of the notification ranges. -/
def handle_zerocopy_completions (r : RecvOutcome) (completed_count : Nat) :
    Int × Nat :=
  match r with
  | .err e =>
      if e = EAGAIN ∨ e = EWOULDBLOCK then (0, completed_count)
      else (-1, completed_count)
  | .ok msgs => (1, process_control_messages msgs completed_count)

/-- C1 counterexample: on a connection with no issued sends at all, a
single forged zero-copy completion notification with range
[lo, hi] = [100, 109] is not rejected: processing it moves the completed
count from 0 to 10, so the outstanding-completions accounting changes. -/
theorem C1_out_of_range_not_rejected :
    (handle_zerocopy_completions
        (.ok [⟨SOL_IP, IP_RECVERR, SO_EE_ORIGIN_ZEROCOPY, 100, 109, 0⟩]) 0).2 = 10
      ∧ (10 : Nat) ≠ 0 := by
  constructor
  · decide
  · decide

/-- C1 amended: handle_zerocopy_completions performs no range validation
at all: a successful read of the error queue returns 1 and adds, for every
control message of zero-copy origin, the full width hi - lo + 1 of its
range (in uint32_t arithmetic) to the completed count — whether or not the
ids in the range were ever issued, and without logging a protocol
violation or aborting. -/
theorem C1_completion_count_unvalidated_sum (msgs : List Cmsg)
    (completed_count : Nat) :
    handle_zerocopy_completions (.ok msgs) completed_count
      = (1, completed_count + (msgs.map cmsg_increment).sum) := by
  have key : ∀ (l : List Cmsg) (c : Nat),
      process_control_messages l c = c + (l.map cmsg_increment).sum := by
    intro l
    induction l with
    | nil => intro c; simp [process_control_messages]
    | cons cm rest ih =>
        intro c
        simp only [process_control_messages, List.map_cons, List.sum_cons, ih]
        omega
  show (1, process_control_messages msgs completed_count)
      = (1, completed_count + (msgs.map cmsg_increment).sum)
  rw [key]

/-- Outcome of one sendmsg call in the send loop: the number of bytes
reported sent, or a failure with an errno. -/
inductive SendOutcome where
  | ok (sent : Nat) : SendOutcome
  | err (e : Nat) : SendOutcome
deriving DecidableEq, Repr

/-- The per-connection mutable state of the zero-copy send loop: the
serialized frame prepared once before the loop (and never touched by it),
its size, the send and completion counters and the local statistics. -/
structure SendLoopState where
  frame : List Nat
  serialized_size : Nat
  send_count : Nat
  completion_count : Nat
  stats : stats_t
deriving Repr

/-- One iteration of the zero-copy send loop body.  The sendmsg outcome,
the number of completions the handler would resolve and the measured
latency are supplied as arguments.  Returns the new state together with
true when control returns to the loop condition (continue, or normal fall
through) and false when the loop breaks.  On EINTR, EAGAIN or ENOBUFS the
body drains completions and continues, so the same frame is retried; on
any other error, or a partial send, it breaks; on a full send it counts
the message, updates the statistics, and drains completions on every
100th send. -/
def send_loop_body (st : SendLoopState) (res : SendOutcome) (drained : Nat)
    (latency_us : ℚ) : SendLoopState × Bool :=
  match res with
  | .err e =>
      if e = EINTR ∨ e = EAGAIN ∨ e = ENOBUFS then
        ({ st with completion_count := st.completion_count + drained }, true)
      else
        (st, false)
  | .ok sent =>
      if sent ≠ st.serialized_size then
        (st, false)
      else
        let st1 := { st with
          send_count := st.send_count + 1,
          stats := stats_update st.stats st.serialized_size latency_us }
        if st1.send_count % 100 = 0 then
          ({ st1 with completion_count := st1.completion_count + drained }, true)
        else
          (st1, true)

/-- C3: when sendmsg fails with the retryable conditions EINTR, EAGAIN or
ENOBUFS (too many pinned pages), the loop body drains available
completions and goes back to the loop condition with the frame, the send
counter and the statistics untouched: the same frame is retried, nothing
is dropped or truncated, and the failed attempt is not recorded as a sent
message. -/
theorem C3_retryable_errors_drain_then_retry (st : SendLoopState) (e : Nat)
    (drained : Nat) (latency_us : ℚ)
    (h : e = EINTR ∨ e = EAGAIN ∨ e = ENOBUFS) :
    (send_loop_body st (.err e) drained latency_us).1.frame = st.frame ∧
    (send_loop_body st (.err e) drained latency_us).1.serialized_size
      = st.serialized_size ∧
    (send_loop_body st (.err e) drained latency_us).1.send_count
      = st.send_count ∧
    (send_loop_body st (.err e) drained latency_us).1.stats = st.stats ∧
    (send_loop_body st (.err e) drained latency_us).1.completion_count
      = st.completion_count + drained ∧
    (send_loop_body st (.err e) drained latency_us).2 = true := by
  simp [send_loop_body, if_pos h]

/-- The state reached by the shutdown drain loop after a number of
iterations: each iteration adds the completions the next poll of
handle_zerocopy_completions resolves (the oracle gives, for each poll, how
many ids that poll resolves; an empty poll is 0). -/
def drain_state (oracle : Nat → Nat) (completion_count : Nat) : Nat → Nat
  | 0 => completion_count
  | k + 1 => drain_state (fun i => oracle (i + 1)) (completion_count + oracle 0) k

/-- The shutdown drain loop
  while (completion_count < send_count) handle_zerocopy_completions(...)
of the zero-copy sender, run for at most fuel condition checks: none means
the loop was still running after fuel iterations, some c means it exited
normally with final completion count c.  The 1 ms usleep between empty
polls does not affect the state. -/
def drain_loop (oracle : Nat → Nat) (send_count completion_count : Nat) :
    Nat → Option Nat
  | 0 => none
  | fuel + 1 =>
      if completion_count < send_count then
        drain_loop (fun i => oracle (i + 1)) send_count
          (completion_count + oracle 0) fuel
      else
        some completion_count

/-- With an oracle that never resolves anything the drain loop state never
moves. -/
theorem drain_state_zero_oracle (k completion_count : Nat) :
    drain_state (fun _ => 0) completion_count k = completion_count := by
  induction k generalizing completion_count with
  | zero => rfl
  | succ n ih => simpa [drain_state] using ih completion_count

/-- With an oracle that never resolves anything and an unresolved send
outstanding, the drain loop never exits, whatever fuel it is given. -/
theorem drain_loop_zero_oracle (fuel send_count completion_count : Nat)
    (h : completion_count < send_count) :
    drain_loop (fun _ => 0) send_count completion_count fuel = none := by
  induction fuel generalizing completion_count with
  | zero => rfl
  | succ k ih =>
      simp only [drain_loop, if_pos h]
      simpa using ih completion_count h

/-- C2 counterexample: a zero-copy connection that issued one send and
never receives another completion notification.  The claim says the
shutdown drain loop is bounded and terminates in every execution; in this
execution it does not terminate for any number of iterations (and hence no
leak warning is ever printed and the close is never reached). -/
theorem C2_drain_loop_can_run_forever :
    ¬ ∃ (fuel result : Nat), drain_loop (fun _ => 0) 1 0 fuel = some result := by
  rintro ⟨fuel, result, hr⟩
  rw [drain_loop_zero_oracle fuel 1 0 (by decide)] at hr
  exact Option.noConfusion hr

/-- C2 amended: the shutdown drain loop is unbounded — no iteration limit
and no leak-warning path exist.  It polls with backoff and exits within a
given number of iterations exactly when the cumulative resolved
completions reach the issued send count within that many polls; in an
execution in which they never do (for instance when no further
notification arrives), it runs forever. -/
theorem C2_drain_loop_exit_iff_counts_reached :
    ∀ (fuel : Nat) (oracle : Nat → Nat) (send_count completion_count : Nat),
      (drain_loop oracle send_count completion_count fuel).isSome ↔
        ∃ k < fuel, send_count ≤ drain_state oracle completion_count k := by
  intro fuel
  induction fuel with
  | zero =>
      intro oracle send_count completion_count
      simp [drain_loop]
  | succ n ih =>
      intro oracle send_count completion_count
      by_cases h : completion_count < send_count
      · simp only [drain_loop, if_pos h]
        rw [ih (fun i => oracle (i + 1)) send_count (completion_count + oracle 0)]
        constructor
        · rintro ⟨k, hk, hle⟩
          exact ⟨k + 1, by omega, hle⟩
        · rintro ⟨k, hk, hle⟩
          match k with
          | 0 =>
              exfalso
              simp only [drain_state] at hle
              omega
          | j + 1 =>
              exact ⟨j, by omega, hle⟩
      · simp only [drain_loop, if_neg h]
        constructor
        · intro _
          exact ⟨0, by omega, by simp only [drain_state]; omega⟩
        · intro _
          simp

/-! ### Aligned buffer allocation (the posix_memalign sites of the
Vectored and Deferred workers)

Each worker computes buffer_size = sizeof(size_t) + msg_size and rounds it
up to the page size with
  aligned_size = ((buffer_size + PAGE_SIZE - 1) / PAGE_SIZE) * PAGE_SIZE
before calling posix_memalign(PAGE_SIZE, aligned_size).  posix_memalign
itself is the environment; it is modelled as an oracle that either fails
or returns a base address, subject to the POSIX contract that a returned
address is a multiple of the requested alignment. -/

/-- PAGE_SIZE as defined in every A2/A3 source file. -/
def PAGE_SIZE : Nat := 4096

/-- The aligned_size expression, in size_t arithmetic. -/
def aligned_size (buffer_size : Nat) : Nat :=
  (buffer_size + PAGE_SIZE - 1) % 2 ^ 64 / PAGE_SIZE * PAGE_SIZE

/-- The POSIX postcondition of posix_memalign: a successfully returned
address is a multiple of the requested alignment. -/
def memalign_contract (memalign : Nat → Nat → Option Nat) : Prop :=
  ∀ alignment size addr, memalign alignment size = some addr → alignment ∣ addr

/-- The aligned-buffer allocation step of the Vectored and Deferred
workers: round the requested minimum size up to the page size and call
posix_memalign with PAGE_SIZE alignment; on success the worker owns the
region (base, aligned length). -/
def allocate_aligned (memalign : Nat → Nat → Option Nat) (min_size : Nat) :
    Option (Nat × Nat) :=
  match memalign PAGE_SIZE (aligned_size min_size) with
  | none => none
  | some addr => some (addr, aligned_size min_size)

/-- C8: a successful aligned allocation returns a region whose base
address is a multiple of the page size 4096 and whose length is the
smallest multiple of 4096 that is at least the requested minimum size
(the overflow bound keeps the size_t rounding expression exact). -/
theorem C8_aligned_allocation_minimal_page_multiple
    (memalign : Nat → Nat → Option Nat) (min_size base len : Nat)
    (hcontract : memalign_contract memalign)
    (hov : min_size + PAGE_SIZE - 1 < 2 ^ 64)
    (halloc : allocate_aligned memalign min_size = some (base, len)) :
    PAGE_SIZE ∣ base ∧ PAGE_SIZE ∣ len ∧ min_size ≤ len ∧
      ∀ n, PAGE_SIZE ∣ n → min_size ≤ n → len ≤ n := by
  unfold allocate_aligned at halloc
  cases hm : memalign PAGE_SIZE (aligned_size min_size) with
  | none =>
      rw [hm] at halloc
      exact Option.noConfusion halloc
  | some addr =>
  rw [hm] at halloc
  injection halloc with h
  injection h with h1 h2
  subst h1
  subst h2
  have hdvd_base : PAGE_SIZE ∣ addr := hcontract _ _ _ hm
  have hps : PAGE_SIZE = 4096 := rfl
  have hsize : aligned_size min_size = (min_size + 4096 - 1) / 4096 * 4096 := by
    unfold aligned_size
    rw [hps, Nat.mod_eq_of_lt (by omega)]
  have hdm := Nat.div_add_mod (min_size + 4095) 4096
  refine ⟨hdvd_base, ?_, ?_, ?_⟩
  · rw [hsize, hps]
    exact Dvd.intro_left _ rfl
  · rw [hsize]
    omega
  · intro n hn hminn
    obtain ⟨t, rfl⟩ := hn
    rw [hsize]
    rw [hps] at hminn ⊢
    omega

/-! ### Concrete witnesses instantiating the hypothesis-bearing theorems -/

/-- C5 witness: an 8-field message with one byte per field round-trips
through a 16-byte buffer. -/
theorem C5_codec_roundtrip_witness :
    (msg_serialize ⟨[[1], [2], [3], [4], [5], [6], [7], [8]], 1⟩
        (List.replicate 16 0)).1 = ((16 : Nat) : Int) ∧
    msg_deserialize (msg_serialize ⟨[[1], [2], [3], [4], [5], [6], [7], [8]], 1⟩
        (List.replicate 16 0)).2
      = some (16, ⟨[[1], [2], [3], [4], [5], [6], [7], [8]], 1⟩) :=
  C5_codec_roundtrip ⟨[[1], [2], [3], [4], [5], [6], [7], [8]], 1⟩
    (List.replicate 16 0) (by decide) (by decide) (by decide)

/-- C6 witness: a 1-byte buffer (shorter than the length field) and an
8-byte buffer declaring field size 1 (frame size 16) are both rejected. -/
theorem C6_deserialize_truncation_rejected_witness :
    msg_deserialize [7] = none ∧
    msg_deserialize [1, 0, 0, 0, 0, 0, 0, 0] = none :=
  ⟨(C6_deserialize_truncation_rejected [7]).1 (by decide),
   (C6_deserialize_truncation_rejected [1, 0, 0, 0, 0, 0, 0, 0]).2
      (by decide) (by decide)⟩

/-- C7 witness: a 2-bytes-per-field message (frame size 24) fails cleanly
on a 10-byte buffer and serializes with result 24 on a 24-byte buffer. -/
theorem C7_serialize_contiguous_or_clean_failure_witness :
    msg_serialize
        ⟨[[1, 2], [3, 4], [5, 6], [7, 8], [9, 10], [11, 12], [13, 14], [15, 16]], 2⟩
        (List.replicate 10 3)
      = (-1, List.replicate 10 3) ∧
    (msg_serialize
        ⟨[[1, 2], [3, 4], [5, 6], [7, 8], [9, 10], [11, 12], [13, 14], [15, 16]], 2⟩
        (List.replicate 24 3)).1 = ((24 : Nat) : Int) :=
  ⟨(C7_serialize_contiguous_or_clean_failure
      ⟨[[1, 2], [3, 4], [5, 6], [7, 8], [9, 10], [11, 12], [13, 14], [15, 16]], 2⟩
      (List.replicate 10 3) (by decide) (by decide)).1 (by decide),
   ((C7_serialize_contiguous_or_clean_failure
      ⟨[[1, 2], [3, 4], [5, 6], [7, 8], [9, 10], [11, 12], [13, 14], [15, 16]], 2⟩
      (List.replicate 24 3) (by decide) (by decide)).2 (by decide)).1⟩

/-- C10 witness: msg_size 12 gives fields of 12 / 8 = 1 byte, an on-wire
frame of 16 bytes, strictly smaller than 8 + 12 = 20. -/
theorem C10_frame_size_floor_division_witness :
    (msg_serialize ⟨[[1], [2], [3], [4], [5], [6], [7], [8]], 1⟩
        (List.replicate 16 7)).1 = ((16 : Nat) : Int) ∧
    8 + NUM_FIELDS * (12 / NUM_FIELDS) < 8 + 12 := by
  have h := C10_frame_size_floor_division 12
    ⟨[[1], [2], [3], [4], [5], [6], [7], [8]], 1⟩ (List.replicate 16 7)
    (by decide) (by decide) (by decide) (by decide)
  exact ⟨h.1, h.2.1 (by decide)⟩

/-- C9 witness: a report over 2 recorded messages with latency sum 10,
started at time 1 and printed at time 3, has duration 3 - 1 and an average
latency whose product with the message count gives back the latency sum. -/
theorem C9_stats_print_snapshot_witness :
    (stats_print 3 ⟨100, 2, 10, 1, 0⟩).2.duration_sec = 3 - 1 ∧
    (stats_print 3 ⟨100, 2, 10, 1, 0⟩).2.avg_latency_us * ((2 : Nat) : ℚ) = 10 := by
  have h := C9_stats_print_snapshot ⟨100, 2, 10, 1, 0⟩ 3 5
  exact ⟨h.2.1.1, h.2.2.2.1 (by decide)⟩

/-- C4 witness: a setsockopt failure with errno 22 (EINVAL, not
ENOPROTOOPT) makes check_zerocopy_support report -1 and the worker abort
before sending. -/
theorem C4_enoprotoopt_falls_back_other_errors_abort_witness :
    check_zerocopy_support (.err 22) = -1 ∧ sender_setup (.err 22) = none :=
  C4_enoprotoopt_falls_back_other_errors_abort.2.2.2.2 22 (by decide)

/-- C3 witness: a sendmsg failure with ENOBUFS (105) in a state with 5
sends issued and 4 completions leaves the counters and statistics alone
except for the 3 freshly drained completions, and the loop continues. -/
theorem C3_retryable_errors_drain_then_retry_witness :
    (send_loop_body ⟨[9, 9], 2, 5, 4, ⟨100, 2, 10, 1, 0⟩⟩ (.err 105) 3 0).1.send_count
      = 5 ∧
    (send_loop_body ⟨[9, 9], 2, 5, 4, ⟨100, 2, 10, 1, 0⟩⟩ (.err 105) 3 0).1.completion_count
      = 4 + 3 ∧
    (send_loop_body ⟨[9, 9], 2, 5, 4, ⟨100, 2, 10, 1, 0⟩⟩ (.err 105) 3 0).2 = true := by
  have h := C3_retryable_errors_drain_then_retry
    ⟨[9, 9], 2, 5, 4, ⟨100, 2, 10, 1, 0⟩⟩ 105 3 0 (by decide)
  exact ⟨h.2.2.1, h.2.2.2.2.1, h.2.2.2.2.2⟩

/-- C8 witness: requesting 108 bytes rounds up to one 4096-byte page, and
with a memalign oracle returning twice the requested alignment the base
8192 is page-aligned. -/
theorem C8_aligned_allocation_minimal_page_multiple_witness :
    PAGE_SIZE ∣ 8192 ∧ PAGE_SIZE ∣ 4096 ∧ 108 ≤ 4096 := by
  have h := C8_aligned_allocation_minimal_page_multiple
    (fun alignment _ => some (alignment * 2)) 108 8192 4096
    (by
      intro alignment size addr hm
      injection hm with hm
      subst hm
      exact Dvd.intro 2 rfl)
    (by decide) (by decide)
  exact ⟨h.1, h.2.1, h.2.2.1⟩
